import Mathlib

/-!
Verification of the grid pipeline in `fragment_hotspot_maps.py`
(repository molsimbcp/hotspots).

The file shallowly embeds the parts of the code the claims C1..C10 are
about.  Machine floats are modelled by exact rationals (`ℚ`) and, where the
code takes square roots or rational powers, by real numbers (`ℝ`).  Python
exceptions are modelled by `Option`/explicit outcome types.

The `Grid` class used by the code lives in the repository module
`enhanced_grid`, which is not part of the sources provided; its operations
are modelled from the spec (§3, §4.1) and are marked as such in their doc
comments.  Everything else is translated from
`src/fragment_hotspot_maps/fragment_hotspot_maps.py`.
-/

/-- Modelled from the spec: the repository's `enhanced_grid.Grid` (module
`enhanced_grid` is not under src/).  Spec §3: "origin point, per-axis step
count, uniform spacing (fixed at 0.5 length units in this system), and a 3D
array of floating-point values (default 0)".  `ox, oy, oz` is the bottom-left
corner of the bounding box, `nx, ny, nz` the step counts, and `f` the cell
values; cells are at coordinates `origin + index * 0.5`. -/
structure GGrid where
  ox : ℚ
  oy : ℚ
  oz : ℚ
  nx : ℕ
  ny : ℕ
  nz : ℕ
  f : ℕ → ℕ → ℕ → ℚ

/-- Value of a cell; out-of-range indices read as the default value 0. -/
def GGrid.val (g : GGrid) (i j k : ℕ) : ℚ :=
  if i < g.nx ∧ j < g.ny ∧ k < g.nz then g.f i j k else 0

/-- Modelled from the spec (§4.1): element-wise algebraic combination of two
aligned grids; the frame is taken from the first argument. -/
def GGrid.lift2 (op : ℚ → ℚ → ℚ) (a b : GGrid) : GGrid :=
  { a with f := fun i j k => op (a.val i j k) (b.val i j k) }

/-- Modelled from the spec (§4.1): grid addition `g1 + g2`. -/
def GGrid.addG (a b : GGrid) : GGrid := GGrid.lift2 (· + ·) a b

/-- Modelled from the spec (§4.1): grid subtraction `g1 - g2`. -/
def GGrid.subG (a b : GGrid) : GGrid := GGrid.lift2 (· - ·) a b

/-- Modelled from the spec (§4.1): element-wise grid product `g1 * g2`. -/
def GGrid.mulG (a b : GGrid) : GGrid := GGrid.lift2 (· * ·) a b

/-- Modelled from the spec (§4.1): scalar product `g * c`. -/
def GGrid.mulS (g : GGrid) (c : ℚ) : GGrid :=
  { g with f := fun i j k => g.val i j k * c }

/-- Modelled from the spec (§4.1): comparison-as-mask `g < c`
(1 where the value is below `c`, else 0). -/
def GGrid.ltS (g : GGrid) (c : ℚ) : GGrid :=
  { g with f := fun i j k => if g.val i j k < c then 1 else 0 }

/-- Modelled from the spec (§4.1): comparison-as-mask `g > c`. -/
def GGrid.gtS (g : GGrid) (c : ℚ) : GGrid :=
  { g with f := fun i j k => if c < g.val i j k then 1 else 0 }

/-- Modelled from the spec (§4.1): comparison-as-mask `g1 > g2`,
element-wise. -/
def GGrid.gtG (a b : GGrid) : GGrid :=
  GGrid.lift2 (fun x y => if y < x then 1 else 0) a b

/-- Modelled from the spec (§4.1): element-wise conjunction `m1 & m2` of two
mask grids (1 where both values are non-zero). -/
def GGrid.andG (a b : GGrid) : GGrid :=
  GGrid.lift2 (fun x y => if x ≠ 0 ∧ y ≠ 0 then 1 else 0) a b

/-- The 27 index offsets of a 3×3×3 neighbourhood. -/
def offsets : List (ℤ × ℤ × ℤ) :=
  ([-1, 0, 1] : List ℤ).flatMap fun di =>
    ([-1, 0, 1] : List ℤ).flatMap fun dj =>
      ([-1, 0, 1] : List ℤ).map fun dk => (di, dj, dk)

/-- The in-bounds cells of the 3×3×3 neighbourhood of cell `(i, j, k)`,
optionally including the cell itself. -/
def GGrid.nbhd (g : GGrid) (i j k : ℕ) (includeSelf : Bool) : List (ℕ × ℕ × ℕ) :=
  offsets.filterMap fun d =>
    if includeSelf = false ∧ d = ((0 : ℤ), (0 : ℤ), (0 : ℤ)) then none
    else
      let i' : ℤ := (i : ℤ) + d.1
      let j' : ℤ := (j : ℤ) + d.2.1
      let k' : ℤ := (k : ℤ) + d.2.2
      if 0 ≤ i' ∧ i' < (g.nx : ℤ) ∧ 0 ≤ j' ∧ j' < (g.ny : ℤ) ∧
          0 ≤ k' ∧ k' < (g.nz : ℤ) then
        some (i'.toNat, j'.toNat, k'.toNat)
      else none

/-- Modelled from the spec (§4.1): `max_value_of_neighbours`, the local
3×3×3 reduction taking the maximum of the (in-bounds) neighbours, self
excluded; a cell with no neighbour yields the default value 0. -/
def GGrid.maxNbrs (g : GGrid) : GGrid :=
  { g with f := fun i j k =>
      ((g.nbhd i j k false).map fun c => g.val c.1 c.2.1 c.2.2).foldl max 0 }

/-- Modelled from the spec (§4.1): `mean_value_of_neighbours`, the local
3×3×3 reduction taking the mean over the (in-bounds) neighbourhood, self
included. -/
def GGrid.meanNbrs (g : GGrid) : GGrid :=
  { g with f := fun i j k =>
      let vs := (g.nbhd i j k true).map fun c => g.val c.1 c.2.1 c.2.2
      vs.sum / (vs.length : ℚ) }

/-- Grid equality: same origin, same step counts and the same value at every
in-bounds cell (spacing is fixed at 0.5 throughout the system). -/
def gridEq (a b : GGrid) : Prop :=
  a.ox = b.ox ∧ a.oy = b.oy ∧ a.oz = b.oz ∧
  a.nx = b.nx ∧ a.ny = b.ny ∧ a.nz = b.nz ∧
  ∀ i < a.nx, ∀ j < a.ny, ∀ k < a.nz, a.f i j k = b.f i j k

instance (a b : GGrid) : Decidable (gridEq a b) := by
  unfold gridEq; exact inferInstance

/-- `_SuperstarResult.correct_ligsite` (fragment_hotspot_maps.py, lines
326-343): `mask = ((l < 1) & (g > 2))`; `lc = l.copy().max_value_of_neighbours()`;
`correction = (mask * lc).mean_value_of_neighbours()`; returns
`l + correction`. -/
def correct_ligsite (g l : GGrid) : GGrid :=
  let mask := GGrid.andG (l.ltS 1) (g.gtS 2)
  let lc := l.maxNbrs
  let correction := (GGrid.mulG mask lc).meanNbrs
  GGrid.addG l correction

/-- The mask `(l < 1) & (g > 2)` used by `correct_ligsite`. -/
def ligsiteMask (g l : GGrid) : GGrid := GGrid.andG (l.ltS 1) (g.gtS 2)

/-- Outcome of `_SuperstarResult.__init__` (lines 309-324).  The two error
constructors are the two `raise AttributeError` statements; `fromFileOnMissingPath`
models the call `Grid.from_file(ligsite_path)` made although the ligsite file
does not exist (whatever error that external call produces, it is not the
designed `AttributeError` of line 324). -/
inductive SSInit where
  | ok (propensity ligsite : GGrid)
  | errGridNotFound
  | fromFileOnMissingPath
  | errLigsiteNotFound

/-- `_SuperstarResult.__init__` (lines 309-324), as a function of which of the
two expected output files exist (`some g` = the file exists and parses to grid
`g`).  Note the source tests `exists(grid_path)` a second time where the
ligsite file is concerned (line 320). -/
def superstarResult_init (gridFile ligsiteFile : Option GGrid) : SSInit :=
  match gridFile with
  | none => SSInit.errGridNotFound
  | some g =>
    -- line 320: `if exists(grid_path):` — the superstar grid path again
    if gridFile.isSome then
      match ligsiteFile with
      | some l => SSInit.ok g (correct_ligsite g l)
      | none => SSInit.fromFileOnMissingPath
    else SSInit.errLigsiteNotFound

/-- Python's `round` on the exact values arising here: nearest integer, with
`⌊q + 1/2⌋` on halves.  (Python 2 rounds halves away from zero; no input used
in this development sits on a half, so the choice is immaterial.) -/
def pyRound (q : ℚ) : ℤ := ⌊q + 1 / 2⌋

/-- `_HotspotsHelper._indices_to_point` (lines 63-77): the world coordinate of
cell `(i, j, k)` of `g`, with the spacing hard-coded to 0.5. -/
def indices_to_point (i j k : ℕ) (g : GGrid) : ℚ × ℚ × ℚ :=
  (g.ox + (i : ℚ) * (1 / 2), g.oy + (j : ℚ) * (1 / 2), g.oz + (1 / 2) * (k : ℚ))

/-- `_HotspotsHelper._point_to_indices` (lines 79-92): the nearest grid index
for a point (may be negative or beyond the extent; the result is a plain
integer triple, unchecked). -/
def point_to_indices (p : ℚ × ℚ × ℚ) (g : GGrid) : ℤ × ℤ × ℤ :=
  (pyRound (p.1 * 2) - pyRound (g.ox * 2),
   pyRound (p.2.1 * 2) - pyRound (g.oy * 2),
   pyRound (p.2.2 * 2) - pyRound (g.oz * 2))

/-- Far corner of a grid along x: the coordinate of the last cell. -/
def farX (g : GGrid) : ℚ := g.ox + ((g.nx : ℚ) - 1) * (1 / 2)

/-- Far corner along y. -/
def farY (g : GGrid) : ℚ := g.oy + ((g.ny : ℚ) - 1) * (1 / 2)

/-- Far corner along z. -/
def farZ (g : GGrid) : ℚ := g.oz + ((g.nz : ℚ) - 1) * (1 / 2)

/-- The cell index of coordinate `x` on an axis with origin `o` and `n` steps,
when `x` falls exactly on a cell of that axis (the grids combined by
`super_grid` share the fixed 0.5 spacing and aligned origins). -/
def cellIdx (o : ℚ) (n : ℕ) (x : ℚ) : Option ℕ :=
  let q := (x - o) * 2
  if q.den = 1 ∧ 0 ≤ q.num ∧ q.num < (n : ℤ) then some q.num.toNat else none

/-- The value of `g` at a world point lying exactly on one of its cells. -/
def GGrid.valAtAligned (g : GGrid) (p : ℚ × ℚ × ℚ) : Option ℚ :=
  match cellIdx g.ox g.nx p.1, cellIdx g.oy g.ny p.2.1, cellIdx g.oz g.nz p.2.2 with
  | some i, some j, some k => some (g.val i j k)
  | _, _, _ => none

/-- Modelled from the spec: `Grid.super_grid(padding, g1, g2)` of the
repository module `enhanced_grid` (not under src/).  Spec §4.1 / §3: unions
the two bounding boxes, adds a border of `padding` zero-valued cells in each
direction, and keeps the grids' values at the cells they cover (points covered
by neither grid are 0; where both cover, the first grid's value is taken —
the callers below only ever overlap a grid with an all-zero grid). -/
def super_grid (padding : ℕ) (g1 g2 : GGrid) : GGrid :=
  let ox := min g1.ox g2.ox - (padding : ℚ) * (1 / 2)
  let oy := min g1.oy g2.oy - (padding : ℚ) * (1 / 2)
  let oz := min g1.oz g2.oz - (padding : ℚ) * (1 / 2)
  { ox := ox, oy := oy, oz := oz
    nx := (⌈(max (farX g1) (farX g2) + (padding : ℚ) * (1 / 2) - ox) * 2⌉).toNat + 1
    ny := (⌈(max (farY g1) (farY g2) + (padding : ℚ) * (1 / 2) - oy) * 2⌉).toNat + 1
    nz := (⌈(max (farZ g1) (farZ g2) + (padding : ℚ) * (1 / 2) - oz) * 2⌉).toNat + 1
    f := fun i j k =>
      let p := (ox + (i : ℚ) * (1 / 2), oy + (j : ℚ) * (1 / 2), oz + (k : ℚ) * (1 / 2))
      match g1.valAtAligned p with
      | some v => v
      | none => (g2.valAtAligned p).getD 0 }

/-- `_HotspotsHelper._copy_and_clear` (lines 109-120): `g.copy()` then
`g *= 0`. -/
def copy_and_clear (g : GGrid) : GGrid := g.mulS 0

/-- `_HotspotsHelper._common_grid` (lines 122-136): `sg = super_grid(padding,
g1, g2)`; `out_g = copy_and_clear(sg)`; returns `(super_grid(padding, g1,
out_g), super_grid(padding, g2, out_g))`.  The default padding at the Python
call site is 1. -/
def common_grid (g1 g2 : GGrid) (padding : ℕ) : GGrid × GGrid :=
  let sg := super_grid padding g1 g2
  let out_g := copy_and_clear sg
  (super_grid padding g1 out_g, super_grid padding g2 out_g)

/-- Modelled from the spec (§4.1): `Grid.set_value`, an explicit in-place
setter (the repository module `enhanced_grid` is not under src/). -/
def GGrid.set_value (g : GGrid) (i j k : ℕ) (v : ℚ) : GGrid :=
  { g with f := fun a b c => if a = i ∧ b = j ∧ c = k then v else g.f a b c }

/-- One line of the secondary burial tool's (ghecom) output, already decoded
from its fixed character columns: whether the line starts with the `HETATM`
record marker, the atom coordinates (columns 31-54), and the burial metric
`rinacc` (columns 61-66). -/
structure GhecomLine where
  isHetatm : Bool
  coords : ℚ × ℚ × ℚ
  rinacc : ℚ

/-- `_GhecomResult.update_grid` (lines 442-457): for every `HETATM` line,
compute the nearest cell of the grid and, if `0 < i < nx and 0 < j < ny and
0 < k < nz`, set that cell to `9.5 - rinacc`; otherwise leave the grid
untouched. -/
def update_grid (g0 : GGrid) (lines : List GhecomLine) : GGrid :=
  lines.foldl
    (fun g line =>
      if line.isHetatm then
        let idx := point_to_indices line.coords g
        if 0 < idx.1 ∧ idx.1 < (g.nx : ℤ) ∧ 0 < idx.2.1 ∧ idx.2.1 < (g.ny : ℤ) ∧
            0 < idx.2.2 ∧ idx.2.2 < (g.nz : ℤ) then
          g.set_value idx.1.toNat idx.2.1.toNat idx.2.2.toNat (19 / 2 - line.rinacc)
        else g
      else g)
    g0

/-- The grids of all channels other than `probe`, in iteration order
(`[self.super_grids[p] for p in self.super_grids.keys() if p != probe]`,
line 2149). -/
def otherGrids (sgs : List (String × GGrid)) (probe : String) : List GGrid :=
  (sgs.filter fun q => q.1 ≠ probe).map Prod.snd

/-- The mask applied to one channel by `_single_grid` (lines 2150-2151):
`g * ((g > other_grids[0]) & (g > other_grids[1]))`; the remaining comparisons
are commented out in the source.  `none` models the `IndexError` raised when
fewer than two other channels exist. -/
def maskedGrid (g : GGrid) (others : List GGrid) : Option GGrid :=
  match others with
  | o0 :: o1 :: _ => some (GGrid.mulG g (GGrid.andG (GGrid.gtG g o0) (GGrid.gtG g o1)))
  | _ => none

/-- `HotspotResults._single_grid` (lines 2138-2154): per channel, mask the
grid so that a cell keeps its value only where it beats the compared other
channels; the channel set is a list of (probe name, grid) pairs in iteration
order. -/
def single_grid (sgs : List (String × GGrid)) : Option (List (String × GGrid)) :=
  sgs.foldr
    (fun pg acc =>
      match maskedGrid pg.2 (otherGrids sgs pg.1), acc with
      | some m, some l => some ((pg.1, m) :: l)
      | _, _ => none)
    (some [])

/-- All cell indices of a grid, in x-major iteration order. -/
def allCells (g : GGrid) : List (ℕ × ℕ × ℕ) :=
  (List.range g.nx).flatMap fun i =>
    (List.range g.ny).flatMap fun j =>
      (List.range g.nz).map fun k => (i, j, k)

/-- The cells whose value strictly exceeds the threshold. -/
def cellsAbove (g : GGrid) (t : ℚ) : List (ℕ × ℕ × ℕ) :=
  (allCells g).filter fun c => decide (t < g.val c.1 c.2.1 c.2.2)

/-- Two axis indices at distance at most one. -/
def axNear (x y : ℕ) : Bool := x == y || x + 1 == y || y + 1 == x

/-- 26-connectivity of two distinct cells (spec §4.1 leaves 6- versus
26-connectivity to the implementer, used consistently). -/
def adjacentCells (a b : ℕ × ℕ × ℕ) : Bool :=
  decide (a ≠ b) && axNear a.1 b.1 && axNear a.2.1 b.2.1 && axNear a.2.2 b.2.2

/-- One growth step of a connected component inside `above`. -/
def growComp (above : List (ℕ × ℕ × ℕ)) (s : List (ℕ × ℕ × ℕ)) : List (ℕ × ℕ × ℕ) :=
  s ++ above.filter fun c => decide (c ∉ s) && s.any fun b => adjacentCells c b

/-- The connected component of `c` inside `above` (grown to fixpoint: one
step per cell of `above` suffices). -/
def componentOf (above : List (ℕ × ℕ × ℕ)) (c : ℕ × ℕ × ℕ) : List (ℕ × ℕ × ℕ) :=
  (growComp above)^[above.length] [c]

/-- The connected components of the cells above the threshold. -/
def islandsCells (g : GGrid) (t : ℚ) : List (List (ℕ × ℕ × ℕ)) :=
  (cellsAbove g t).foldl
    (fun acc c =>
      if acc.any fun comp => decide (c ∈ comp) then acc
      else acc ++ [componentOf (cellsAbove g t) c])
    []

/-- Minimum of a list of naturals (0 for the empty list). -/
def minList (l : List ℕ) : ℕ := l.foldl min (l.headD 0)

/-- Maximum of a list of naturals. -/
def maxList (l : List ℕ) : ℕ := l.foldl max 0

/-- The sub-grid covering the bounding region of a set of cells of `g`, with
non-member cells zeroed (spec §3, "Island"). -/
def subGridOf (g : GGrid) (cells : List (ℕ × ℕ × ℕ)) : GGrid :=
  let i0 := minList (cells.map fun c => c.1)
  let j0 := minList (cells.map fun c => c.2.1)
  let k0 := minList (cells.map fun c => c.2.2)
  { ox := g.ox + (i0 : ℚ) * (1 / 2)
    oy := g.oy + (j0 : ℚ) * (1 / 2)
    oz := g.oz + (k0 : ℚ) * (1 / 2)
    nx := maxList (cells.map fun c => c.1) + 1 - i0
    ny := maxList (cells.map fun c => c.2.1) + 1 - j0
    nz := maxList (cells.map fun c => c.2.2) + 1 - k0
    f := fun i j k =>
      if (i + i0, j + j0, k + k0) ∈ cells then g.val (i + i0) (j + j0) (k + k0) else 0 }

/-- Modelled from the spec (§4.1): `Grid.islands(threshold)` of the
repository module `enhanced_grid` (not under src/): all maximal connected
components with value above the threshold, each as its own bounded
sub-grid. -/
def GGrid.islands (g : GGrid) (t : ℚ) : List GGrid :=
  (islandsCells g t).map (subGridOf g)

/-- Insertion into a Python dict keyed by a (float) score: replace the value
at an existing equal key, else append. -/
def dictInsert {α : Type} (d : List (ℚ × α)) (k : ℚ) (v : α) : List (ℚ × α) :=
  if d.any fun p => decide (p.1 = k) then
    d.map fun p => if p.1 = k then (k, v) else p
  else d ++ [(k, v)]

/-- The greatest key of an association list (`sorted(keys, reverse=True)[0]`),
`none` when empty (the `IndexError` case). -/
def maxKey {α : Type} (d : List (ℚ × α)) : Option ℚ :=
  d.foldl (fun m p => match m with | none => some p.1 | some q => some (max q p.1)) none

/-- Sum of the values of `g` that are `≥ cutoff`
(`island_points` of lines 2224-2227). -/
def islandTotal (g : GGrid) (cutoff : ℚ) : ℚ :=
  (((allCells g).filter fun c => decide (cutoff ≤ g.val c.1 c.2.1 c.2.2)).map
    fun c => g.val c.1 c.2.1 c.2.2).sum

/-- Number of cells of `g` with value `≥ cutoff`. -/
def countGE (g : GGrid) (cutoff : ℚ) : ℕ :=
  ((allCells g).filter fun c => decide (cutoff ≤ g.val c.1 c.2.1 c.2.2)).length

/-- `HotspotResults._island_by_volume` (lines 2213-2235): among the islands of
`sg` at the cutoff, pick the one with the greatest total of values above the
cutoff (via a dict keyed by that floating total); `none` when there is no
island. -/
def island_by_volume (sg : GGrid) (score_cutoff : ℚ) : Option GGrid :=
  let isl := sg.islands score_cutoff
  let d := isl.foldl (fun d g => dictInsert d (islandTotal g score_cutoff) g) []
  match maxKey d with
  | none => none
  | some top => (d.find? fun p => decide (p.1 = top)).map Prod.snd

/-- Python `int()` of a rational: truncation toward zero. -/
def pyInt (q : ℚ) : ℤ := q.num / q.den

/-- `HotspotResults._count_non_zero` (lines 2178-2193): the objective handed
to the bounded minimiser; 9999 when no island exists at the cutoff. -/
def count_non_zero (sg : GGrid) (num_gp : ℤ) (cutoff : ℚ) : ℤ :=
  match island_by_volume sg cutoff with
  | none => 9999
  | some tmp => |num_gp - (countGE tmp cutoff : ℤ)|

/-- `HotspotResults._count_non_zero_alt` (lines 2195-2211): as above but
signed, and 0 when no island exists (the `AttributeError` branch). -/
def count_non_zero_alt (sg : GGrid) (num_gp : ℤ) (cutoff : ℚ) : ℤ :=
  match island_by_volume sg cutoff with
  | none => 0
  | some tmp => num_gp - (countGE tmp cutoff : ℤ)

/-- Modelled from the spec (§4.1): `Grid.value_at_point`, the value accessor
by nearest-index-from-point; lookups outside the grid extent fail. -/
def GGrid.value_at_point (g : GGrid) (p : ℚ × ℚ × ℚ) : Option ℚ :=
  let idx := point_to_indices p g
  if 0 ≤ idx.1 ∧ idx.1 < (g.nx : ℤ) ∧ 0 ≤ idx.2.1 ∧ idx.2.1 < (g.ny : ℤ) ∧
      0 ≤ idx.2.2 ∧ idx.2.2 < (g.nz : ℤ) then
    some (g.val idx.1.toNat idx.2.1.toNat idx.2.2.toNat)
  else none

/-- Append a coordinate to the group of its score in the `all_points` dict
(lines 2273-2276). -/
def groupAdd (d : List (ℚ × List (ℚ × ℚ × ℚ))) (k : ℚ) (c : ℚ × ℚ × ℚ) :
    List (ℚ × List (ℚ × ℚ × ℚ)) :=
  if d.any fun p => decide (p.1 = k) then
    d.map fun p => if p.1 = k then (p.1, p.2 ++ [c]) else p
  else d ++ [(k, [c])]

/-- State of the `kept_points` accumulation loop of lines 2279-2285. -/
structure KeepState where
  kept : ℕ
  cutoff : Option ℚ
  finished : Bool

/-- `HotspotResults._get_grid_by_volume` (lines 2237-2288).  `volume` is the
target volume; `fminOut` stands for the output of the external scipy call
`optimize.fminbound(self._count_non_zero, 0, 30, xtol=0.025)` (an external
library, abstracted as a parameter constrained to the search interval in the
theorems).  Returns `none` where the Python code would die with an unhandled
error (a failed point lookup, or no score group at all). -/
def get_grid_by_volume (sg : GGrid) (volume : ℚ) (fminOut : ℚ) : Option GGrid :=
  let num_gp := pyInt (volume / (1 / 8))
  let c1 := if count_non_zero_alt sg num_gp fminOut < 0 then fminOut - 1 / 40 else fminOut
  let c2 := if 29 ≤ c1 then 1 else c1
  match island_by_volume sg c2 with
  | none => some (sg.mulS 0)
  | some tmp_g =>
    let cg := common_grid sg tmp_g 0
    let c_sg := cg.1
    let top_g := cg.2
    let grouped : Option (List (ℚ × List (ℚ × ℚ × ℚ))) :=
      (allCells tmp_g).foldlM
        (fun d c =>
          let coords := indices_to_point c.1 c.2.1 c.2.2 tmp_g
          (c_sg.value_at_point coords).map fun v => groupAdd d v coords)
        []
    match grouped with
    | none => none
    | some d =>
      let scores := (d.map Prod.fst).mergeSort fun a b => decide (b ≤ a)
      let final : KeepState :=
        scores.foldl
          (fun (st : KeepState) s =>
            if st.finished then st
            else
              let kept := st.kept + ((d.find? fun p => decide (p.1 = s)).map
                fun p => p.2.length).getD 0
              { kept := kept, cutoff := some s,
                finished := decide (num_gp ≤ (kept : ℤ)) })
          { kept := 0, cutoff := none, finished := false }
      match final.cutoff with
      | none => none
      | some new_cutoff => some (top_g.gtS new_cutoff)

/-- One channel's processing in `best_continuous_volume` (lines 2574-2576):
`c_mg, c_second_mask = self._common_grid(mg, second_mask, padding=0)`;
`out_g = c_mg * c_second_mask`. -/
def bcv_channel (mg second_mask : GGrid) : GGrid :=
  let cg := common_grid mg second_mask 0
  GGrid.mulG cg.1 cg.2

/-- An atom of a probe molecule, with the fields `get_priority_atom` reads:
coordinates, donor/acceptor classification and formal charge. -/
structure PAtom where
  coordinates : ℚ × ℚ × ℚ
  is_donor : Bool
  is_acceptor : Bool
  formal_charge : ℤ
deriving DecidableEq

/-- Modelled from the spec: `molecule.centre_of_geometry()` of the external
molecule model (§6, "protein model exposing atoms with 3D coordinates"), the
centroid of the atom coordinates. -/
def centre_of_geometry (atoms : List PAtom) : ℚ × ℚ × ℚ :=
  ((atoms.map fun a => a.coordinates.1).sum / (atoms.length : ℚ),
   (atoms.map fun a => a.coordinates.2.1).sum / (atoms.length : ℚ),
   (atoms.map fun a => a.coordinates.2.2).sum / (atoms.length : ℚ))

/-- `_HotspotsHelper._get_distance` (lines 94-107): Euclidean distance. -/
noncomputable def get_distance (c p : ℚ × ℚ × ℚ) : ℝ :=
  Real.sqrt (((c.1 : ℝ) - (p.1 : ℝ)) ^ 2 + ((c.2.1 : ℝ) - (p.2.1 : ℝ)) ^ 2 +
    ((c.2.2 : ℝ) - (p.2.2 : ℝ)) ^ 2)

open Classical in
/-- Insertion into the Python dict `atom_by_distance` keyed by the (float)
distance: replace at an existing equal key, else append. -/
noncomputable def dictInsertR (d : List (ℝ × PAtom)) (k : ℝ) (a : PAtom) :
    List (ℝ × PAtom) :=
  if d.any fun p => decide (p.1 = k) then
    d.map fun p => if p.1 = k then (k, a) else p
  else d ++ [(k, a)]

/-- The least key of the distance dict: `sorted(atom_by_distance.keys())[0]`
(line 2769), `none` when the dict is empty (`IndexError`). -/
noncomputable def minKeyR (d : List (ℝ × PAtom)) : Option ℝ :=
  d.foldl (fun m p => match m with | none => some p.1 | some q => some (min q p.1)) none

open Classical in
/-- Dict lookup `atom_by_distance[key]`. -/
noncomputable def lookupR (d : List (ℝ × PAtom)) (k : ℝ) : Option PAtom :=
  (d.find? fun p => decide (p.1 = k)).map Prod.snd

/-- `Hotspots._Sampler.get_priority_atom` (lines 2748-2786): build a dict
from distance-to-centroid to atom over the polar atoms (or, if none, all
atoms), take `sorted(keys)[0]` — the LEAST distance — and look the atom up;
classify its interaction type.  `none` models the `IndexError` on an atomless
molecule. -/
noncomputable def get_priority_atom (atoms : List PAtom) : Option (PAtom × String) :=
  let c := centre_of_geometry atoms
  let polar_atoms := atoms.filter fun a => a.is_donor || a.is_acceptor
  let pool := if 0 < polar_atoms.length then polar_atoms else atoms
  let d := pool.foldl (fun d a => dictInsertR d (get_distance c a.coordinates) a) []
  match minKeyR d with
  | none => none
  | some greatest_distance =>
    match lookupR d greatest_distance with
    | none => none
    | some priority_atom =>
      let pa_type :=
        if priority_atom.formal_charge ≠ 0 then
          if priority_atom.formal_charge < 0 then "negative" else "positive"
        else
          if priority_atom.is_acceptor then "acceptor"
          else if priority_atom.is_donor then "donor"
          else "apolar"
      some (priority_atom, pa_type)

/-- `Hotspots._Sampler.score` (lines 2842-2851):
`reduce(operator.__mul__, values, 1.0) ** (1. / len(values))`.  The exponent
`1. / len(values)` is evaluated first, so a zero-length list raises
`ZeroDivisionError`, modelled as `none`. -/
noncomputable def sampler_score (values : List ℚ) : Option ℝ :=
  if values.length = 0 then none
  else some (((values.foldl (· * ·) 1 : ℚ) : ℝ) ^ ((1 : ℝ) / (values.length : ℝ)))

/-- The quaternion emitted at line 2835:
`(r1, r2, r3 * sqrt((1 - s1) / s2), r4 * sqrt((1 - s1) / s2))` with
`s1 = r1² + r2²` and `s2 = r3² + r4²`. -/
noncomputable def emit_quaternion (r1 r2 r3 r4 : ℚ) : ℝ × ℝ × ℝ × ℝ :=
  let s1 : ℚ := r1 * r1 + r2 * r2
  let s2 : ℚ := r3 * r3 + r4 * r4
  ((r1 : ℝ), (r2 : ℝ),
   (r3 : ℝ) * Real.sqrt ((1 - (s1 : ℝ)) / (s2 : ℝ)),
   (r4 : ℝ) * Real.sqrt ((1 - (s1 : ℝ)) / (s2 : ℝ)))

/-- Squared Euclidean norm of a quaternion. -/
noncomputable def quatNormSq (q : ℝ × ℝ × ℝ × ℝ) : ℝ :=
  q.1 ^ 2 + q.2.1 ^ 2 + q.2.2.1 ^ 2 + q.2.2.2 ^ 2

/-- `Hotspots._Sampler.Settings` (lines 2712-2727), with its defaults. -/
structure SamplerSettings where
  nrotations : ℕ := 3000
  apolar_translation_threshold : ℚ := 15
  polar_translation_threshold : ℚ := 15
  polar_contributions : Bool := false

/-- The `while i <= nrotations` rejection-sampling loop of
`generate_rand_quaternions` (lines 2825-2838).  `stream` is the sequence of
values drawn by `random.uniform(-1, 1)` and `pos` the next position to draw;
`fuel` bounds the number of loop iterations and `none` models a run that
exhausts it (the Python loop simply keeps drawing). -/
noncomputable def genLoop (stream : ℕ → ℚ) :
    ℕ → ℕ → ℕ → ℕ → List (ℝ × ℝ × ℝ × ℝ) → Option (List (ℝ × ℝ × ℝ × ℝ))
  | 0, _, _, _, _ => none
  | fuel + 1, pos, i, n, acc =>
    if i ≤ n then
      let r1 := stream pos
      let r2 := stream (pos + 1)
      let s1 := r1 * r1 + r2 * r2
      if s1 < 1 then
        let r3 := stream (pos + 2)
        let r4 := stream (pos + 3)
        let s2 := r3 * r3 + r4 * r4
        if s2 < 1 then
          genLoop stream fuel (pos + 4) (i + 1) n (acc ++ [emit_quaternion r1 r2 r3 r4])
        else genLoop stream fuel (pos + 4) i n acc
      else genLoop stream fuel (pos + 2) i n acc
    else some acc

/-- `Hotspots._Sampler.generate_rand_quaternions` (lines 2815-2840): guarded
by `if self.settings.nrotations > 1`, then the rejection-sampling loop
starting at `i = 1`. -/
noncomputable def generate_rand_quaternions (stream : ℕ → ℚ) (fuel : ℕ)
    (settings : SamplerSettings) : Option (List (ℝ × ℝ × ℝ × ℝ)) :=
  if 1 < settings.nrotations then genLoop stream fuel 0 1 settings.nrotations []
  else some []

/-- Two grids on the same frame: same origin and step counts (the spacing is
the fixed 0.5). -/
def sameFrame (a b : GGrid) : Prop :=
  a.ox = b.ox ∧ a.oy = b.oy ∧ a.oz = b.oz ∧ a.nx = b.nx ∧ a.ny = b.ny ∧ a.nz = b.nz

/-- A grid with at least one cell along each axis. -/
def nonemptyG (g : GGrid) : Prop := 0 < g.nx ∧ 0 < g.ny ∧ 0 < g.nz

instance (a b : GGrid) : Decidable (sameFrame a b) := by
  unfold sameFrame; exact inferInstance

instance (g : GGrid) : Decidable (nonemptyG g) := by
  unfold nonemptyG; exact inferInstance

/-- The value of the named channel at a cell, inside an optional channel
list. -/
def channelValue (r : Option (List (String × GGrid))) (name : String)
    (i j k : ℕ) : Option ℚ :=
  r.bind fun ms => (ms.find? fun p => p.1 == name).map fun p => p.2.val i j k

/-- A constant 1×1×1 grid at the origin. -/
def cgrid (v : ℚ) : GGrid :=
  { ox := 0, oy := 0, oz := 0, nx := 1, ny := 1, nz := 1, f := fun _ _ _ => v }

/-- A constant 2×2×2 grid at the origin. -/
def cgrid2 (v : ℚ) : GGrid :=
  { ox := 0, oy := 0, oz := 0, nx := 2, ny := 2, nz := 2, f := fun _ _ _ => v }

/-- An all-zero 1×1×1 grid (no island at any non-negative cutoff). -/
def zgrid : GGrid := cgrid 0

/-- 2×2×2 burial grid with an apparent clash (value 0) at cell (0,0,0) and
value 5 elsewhere. -/
def lClash : GGrid :=
  { ox := 0, oy := 0, oz := 0, nx := 2, ny := 2, nz := 2,
    f := fun i j k => if i = 0 ∧ j = 0 ∧ k = 0 then 0 else 5 }

/-- 2×2×2 propensity grid with the favourable value 3 everywhere. -/
def gFav : GGrid := cgrid2 3

/-- Four channels (as when charged probes are included): the donor value 5
beats apolar and acceptor but not the negative channel's 9. -/
def sgs4 : List (String × GGrid) :=
  [("apolar", cgrid 1), ("donor", cgrid 5), ("acceptor", cgrid 1), ("negative", cgrid 9)]

/-- A polar (acceptor) atom 1 unit from the example molecule's centroid. -/
def atomA : PAtom := { coordinates := (1, 0, 0), is_donor := false,
                       is_acceptor := true, formal_charge := 0 }

/-- A polar (acceptor) atom 3 units from the example molecule's centroid. -/
def atomB : PAtom := { coordinates := (5, 0, 0), is_donor := false,
                       is_acceptor := true, formal_charge := 0 }

/-- An apolar carbon placing the centroid at (2, 0, 0). -/
def atomC : PAtom := { coordinates := (0, 0, 0), is_donor := false,
                       is_acceptor := false, formal_charge := 0 }

/-- Example molecule: two polar atoms at distances 1 and 3 from the centroid
(2, 0, 0), plus one apolar atom. -/
def molEx : List PAtom := [atomA, atomB, atomC]

/-- A `HETATM` line whose nearest cell of `cgrid2 0` is the in-bounds
boundary cell (0, 0, 0). -/
def lineC : GhecomLine := { isHetatm := true, coords := (0, 0, 0), rinacc := 2 }

/-- A `HETATM` line whose nearest cell of `cgrid2 0` is the interior cell
(1, 1, 1). -/
def lineW : GhecomLine := { isHetatm := true, coords := (1/2, 1/2, 1/2), rinacc := 2 }

/-! ## Theorems -/

/-- A neighbourhood only contains in-bounds cells. -/
lemma nbhd_mem (g : GGrid) (i j k : ℕ) (s : Bool) (c : ℕ × ℕ × ℕ)
    (hc : c ∈ g.nbhd i j k s) : c.1 < g.nx ∧ c.2.1 < g.ny ∧ c.2.2 < g.nz := by
  simp only [GGrid.nbhd, List.mem_filterMap] at hc
  obtain ⟨d, _, hd⟩ := hc
  split at hd
  · exact absurd hd (by simp)
  · split at hd
    · cases hd
      refine ⟨?_, ?_, ?_⟩ <;> simp <;> omega
    · exact absurd hd (by simp)

/-- Element-wise combinations evaluate cellwise at in-bounds cells. -/
lemma lift2_val (op : ℚ → ℚ → ℚ) (a b : GGrid) (i j k : ℕ)
    (h1 : i < a.nx) (h2 : j < a.ny) (h3 : k < a.nz) :
    (GGrid.lift2 op a b).val i j k = op (a.val i j k) (b.val i j k) := by
  simp [GGrid.lift2, GGrid.val, h1, h2, h3]

/-- The neighbour mean evaluates to the sum over the neighbourhood divided by
its size. -/
lemma meanNbrs_val (g : GGrid) (i j k : ℕ)
    (h1 : i < g.nx) (h2 : j < g.ny) (h3 : k < g.nz) :
    g.meanNbrs.val i j k =
      ((g.nbhd i j k true).map fun c => g.val c.1 c.2.1 c.2.2).sum /
        ((g.nbhd i j k true).length : ℚ) := by
  simp [GGrid.meanNbrs, GGrid.val, h1, h2, h3]

@[simp] lemma lift2_nx (op : ℚ → ℚ → ℚ) (a b : GGrid) : (GGrid.lift2 op a b).nx = a.nx := rfl

@[simp] lemma lift2_ny (op : ℚ → ℚ → ℚ) (a b : GGrid) : (GGrid.lift2 op a b).ny = a.ny := rfl

@[simp] lemma lift2_nz (op : ℚ → ℚ → ℚ) (a b : GGrid) : (GGrid.lift2 op a b).nz = a.nz := rfl

/-- Cellwise form of the per-channel mask of `_single_grid`:
`g * ((g > o0) & (g > o1))` keeps the value where it beats the two compared
grids and is zero elsewhere. -/
lemma mask_val (g o0 o1 : GGrid) (i j k : ℕ)
    (h1 : i < g.nx) (h2 : j < g.ny) (h3 : k < g.nz) :
    (GGrid.mulG g (GGrid.andG (GGrid.gtG g o0) (GGrid.gtG g o1))).val i j k =
      if o0.val i j k < g.val i j k ∧ o1.val i j k < g.val i j k
      then g.val i j k else 0 := by
  simp only [GGrid.mulG, GGrid.andG, GGrid.gtG]
  rw [lift2_val _ _ _ _ _ _ h1 h2 h3]
  rw [lift2_val _ _ _ _ _ _ (by simpa using h1) (by simpa using h2) (by simpa using h3)]
  rw [lift2_val _ _ _ _ _ _ h1 h2 h3, lift2_val _ _ _ _ _ _ h1 h2 h3]
  by_cases hA : o0.val i j k < g.val i j k <;> by_cases hB : o1.val i j k < g.val i j k <;>
    simp [hA, hB]

/-- Cellwise form of `correct_ligsite`: the original burial value plus the
neighbourhood mean of mask × max-smoothed burial. -/
lemma correct_ligsite_val_aux (g l : GGrid) (i j k : ℕ)
    (h1 : i < l.nx) (h2 : j < l.ny) (h3 : k < l.nz) :
    (correct_ligsite g l).val i j k =
      l.val i j k +
        ((l.nbhd i j k true).map fun c =>
          (ligsiteMask g l).val c.1 c.2.1 c.2.2 * l.maxNbrs.val c.1 c.2.1 c.2.2).sum /
          ((l.nbhd i j k true).length : ℚ) := by
  have e1 : (correct_ligsite g l).val i j k =
      l.val i j k + (GGrid.mulG (ligsiteMask g l) l.maxNbrs).meanNbrs.val i j k :=
    lift2_val _ l _ i j k h1 h2 h3
  rw [e1, meanNbrs_val (GGrid.mulG (ligsiteMask g l) l.maxNbrs) i j k h1 h2 h3]
  have hnb : (GGrid.mulG (ligsiteMask g l) l.maxNbrs).nbhd i j k true =
      l.nbhd i j k true := rfl
  rw [hnb]
  have hmap : List.map (fun c => ((ligsiteMask g l).mulG l.maxNbrs).val c.1 c.2.1 c.2.2)
        (l.nbhd i j k true) =
      List.map (fun c => (ligsiteMask g l).val c.1 c.2.1 c.2.2 * l.maxNbrs.val c.1 c.2.1 c.2.2)
        (l.nbhd i j k true) := by
    refine List.map_congr_left fun c hc => ?_
    obtain ⟨hb1, hb2, hb3⟩ := nbhd_mem l i j k true c hc
    exact lift2_val _ _ _ _ _ _ hb1 hb2 hb3
  rw [hmap]

/-- C2 (amended, proved): at every in-bounds cell, the corrected burial grid
equals the original burial value PLUS the 3×3×3-neighbourhood mean of
(mask × max-smoothed burial), where the mask is 1 exactly at cells with
burial < 1 and propensity > 2; in particular a cell whose whole neighbourhood
contains no masked cell keeps its original burial value (so the change also
spreads to unmasked neighbours of masked cells, and a masked cell is not
simply replaced by the neighbour mean of the smoothed burial grid). -/
theorem correct_ligsite_cellwise (g l : GGrid) (i j k : ℕ)
    (h1 : i < l.nx) (h2 : j < l.ny) (h3 : k < l.nz) :
    ((correct_ligsite g l).val i j k =
      l.val i j k +
        ((l.nbhd i j k true).map fun c =>
          (ligsiteMask g l).val c.1 c.2.1 c.2.2 * l.maxNbrs.val c.1 c.2.1 c.2.2).sum /
          ((l.nbhd i j k true).length : ℚ)) ∧
    ((∀ c ∈ l.nbhd i j k true, (ligsiteMask g l).val c.1 c.2.1 c.2.2 = 0) →
      (correct_ligsite g l).val i j k = l.val i j k) := by
  refine ⟨correct_ligsite_val_aux g l i j k h1 h2 h3, fun hz => ?_⟩
  rw [correct_ligsite_val_aux g l i j k h1 h2 h3]
  have hs : ((l.nbhd i j k true).map fun c =>
      (ligsiteMask g l).val c.1 c.2.1 c.2.2 * l.maxNbrs.val c.1 c.2.1 c.2.2).sum = 0 := by
    refine List.sum_eq_zero fun x hx => ?_
    simp only [List.mem_map] at hx
    obtain ⟨c, hc, rfl⟩ := hx
    rw [hz c hc, zero_mul]
  rw [hs, zero_div, add_zero]

/-- Witness for C2's amended theorem: on flat grids (burial 5, propensity 3)
the mask is zero everywhere and the corrected grid keeps the burial value. -/
theorem correct_ligsite_cellwise_witness :
    ((correct_ligsite (cgrid2 3) (cgrid2 5)).val 0 0 0 =
      (cgrid2 5).val 0 0 0 +
        (((cgrid2 5).nbhd 0 0 0 true).map fun c =>
          (ligsiteMask (cgrid2 3) (cgrid2 5)).val c.1 c.2.1 c.2.2 *
            (cgrid2 5).maxNbrs.val c.1 c.2.1 c.2.2).sum /
          (((cgrid2 5).nbhd 0 0 0 true).length : ℚ)) ∧
    (correct_ligsite (cgrid2 3) (cgrid2 5)).val 0 0 0 = (cgrid2 5).val 0 0 0 := by
  have H := correct_ligsite_cellwise (cgrid2 3) (cgrid2 5) 0 0 0
    (by decide) (by decide) (by decide)
  exact ⟨H.1, H.2 (by decide)⟩

/-- C2 (counterexample): on `gFav`/`lClash` the cell (0,0,0) is masked
(burial 0 < 1, propensity 3 > 2); the corrected value there is 5/8 — not the
neighbour mean 5 of the max-smoothed burial grid — and the unmasked
neighbouring cell (1,0,0) changes from 5 to 5 + 5/8 instead of staying
unchanged. -/
theorem correct_ligsite_counterexample :
    (ligsiteMask gFav lClash).val 0 0 0 = 1 ∧
    (correct_ligsite gFav lClash).val 0 0 0 ≠ (lClash.maxNbrs.meanNbrs).val 0 0 0 ∧
    (ligsiteMask gFav lClash).val 1 0 0 = 0 ∧
    (correct_ligsite gFav lClash).val 1 0 0 ≠ lClash.val 1 0 0 := by
  have hnb : lClash.nbhd 0 0 0 true =
      [(0,0,0),(0,0,1),(0,1,0),(0,1,1),(1,0,0),(1,0,1),(1,1,0),(1,1,1)] := by decide
  have hnb1 : lClash.nbhd 1 0 0 true =
      [(0,0,0),(0,0,1),(0,1,0),(0,1,1),(1,0,0),(1,0,1),(1,1,0),(1,1,1)] := by decide
  have m000 : (ligsiteMask gFav lClash).val 0 0 0 = 1 := by decide
  have m001 : (ligsiteMask gFav lClash).val 0 0 1 = 0 := by decide
  have m010 : (ligsiteMask gFav lClash).val 0 1 0 = 0 := by decide
  have m011 : (ligsiteMask gFav lClash).val 0 1 1 = 0 := by decide
  have m100 : (ligsiteMask gFav lClash).val 1 0 0 = 0 := by decide
  have m101 : (ligsiteMask gFav lClash).val 1 0 1 = 0 := by decide
  have m110 : (ligsiteMask gFav lClash).val 1 1 0 = 0 := by decide
  have m111 : (ligsiteMask gFav lClash).val 1 1 1 = 0 := by decide
  have x000 : lClash.maxNbrs.val 0 0 0 = 5 := by decide
  have x001 : lClash.maxNbrs.val 0 0 1 = 5 := by decide
  have x010 : lClash.maxNbrs.val 0 1 0 = 5 := by decide
  have x011 : lClash.maxNbrs.val 0 1 1 = 5 := by decide
  have x100 : lClash.maxNbrs.val 1 0 0 = 5 := by decide
  have x101 : lClash.maxNbrs.val 1 0 1 = 5 := by decide
  have x110 : lClash.maxNbrs.val 1 1 0 = 5 := by decide
  have x111 : lClash.maxNbrs.val 1 1 1 = 5 := by decide
  have l000 : lClash.val 0 0 0 = 0 := by decide
  have l100 : lClash.val 1 0 0 = 5 := by decide
  have e0 := correct_ligsite_val_aux gFav lClash 0 0 0 (by decide) (by decide) (by decide)
  have e1 := correct_ligsite_val_aux gFav lClash 1 0 0 (by decide) (by decide) (by decide)
  rw [hnb] at e0
  rw [hnb1] at e1
  simp only [List.map_cons, List.map_nil, List.sum_cons, List.sum_nil, List.length_cons,
    List.length_nil, m000, m001, m010, m011, m100, m101, m110, m111,
    x000, x001, x010, x011, x100, x101, x110, x111, l000, l100] at e0 e1
  have hclaim : (lClash.maxNbrs.meanNbrs).val 0 0 0 = 5 := by
    have hnbm : lClash.maxNbrs.nbhd 0 0 0 true = lClash.nbhd 0 0 0 true := rfl
    rw [meanNbrs_val _ 0 0 0 (by decide) (by decide) (by decide), hnbm, hnb]
    simp only [List.map_cons, List.map_nil, List.sum_cons, List.sum_nil, List.length_cons,
      List.length_nil, x000, x001, x010, x011, x100, x101, x110, x111]
    norm_num
  refine ⟨m000, ?_, m100, ?_⟩
  · rw [e0, hclaim]; norm_num
  · rw [e1, l100]; norm_num

/-- C5 (code_bug): `_SuperstarResult.__init__` re-tests `exists(grid_path)`
where the ligsite file is concerned, so when the propensity grid file exists
and the ligsite file is absent the constructor calls `Grid.from_file` on the
absent path instead of raising its designed missing-ligsite `AttributeError`;
that designed error (line 324) is unreachable for every combination of file
presences. -/
theorem superstar_missing_ligsite_not_signalled :
    (∀ g : GGrid, superstarResult_init (some g) none = SSInit.fromFileOnMissingPath) ∧
    ∀ gf lf : Option GGrid, superstarResult_init gf lf ≠ SSInit.errLigsiteNotFound := by
  constructor
  · intro g; rfl
  · intro gf lf
    cases gf <;> cases lf <;> simp [superstarResult_init]

/-- C4 (code_bug): the pose-scoring function applied to a zero-length list of
atom scores does not yield 0 — it evaluates `1. / len(values)` with
`len(values) = 0` and dies with a `ZeroDivisionError` (modelled as `none`). -/
theorem sampler_score_empty_raises :
    sampler_score [] = none ∧ sampler_score [] ≠ some 0 := by
  constructor
  · rfl
  · intro h
    simpa [sampler_score] using h

/-- C6 (confirmed): a quaternion emitted from accepted draws — `s1 = r1²+r2²
< 1`, `0 < s2 = r3²+r4² < 1` — has squared norm exactly 1. -/
theorem emit_quaternion_norm (r1 r2 r3 r4 : ℚ)
    (h1 : r1 * r1 + r2 * r2 < 1) (h2 : 0 < r3 * r3 + r4 * r4)
    (h3 : r3 * r3 + r4 * r4 < 1) :
    quatNormSq (emit_quaternion r1 r2 r3 r4) = 1 := by
  have hs1 : ((r1 : ℝ) * r1 + (r2 : ℝ) * r2) < 1 := by exact_mod_cast h1
  have hs2 : (0 : ℝ) < (r3 : ℝ) * r3 + (r4 : ℝ) * r4 := by exact_mod_cast h2
  unfold quatNormSq emit_quaternion
  push_cast
  have hD : (0 : ℝ) ≤ (1 - ((r1 : ℝ) * r1 + (r2 : ℝ) * r2)) /
      ((r3 : ℝ) * r3 + (r4 : ℝ) * r4) :=
    div_nonneg (by linarith) (le_of_lt hs2)
  rw [mul_pow, mul_pow, Real.sq_sqrt hD]
  field_simp
  ring

/-- Witness for C6 at the concrete accepted draw `(0, 0, 1/2, 0)`. -/
theorem emit_quaternion_norm_witness :
    ((0 : ℚ) * 0 + 0 * 0 < 1) ∧ (0 < (1/2 : ℚ) * (1/2) + 0 * 0) ∧
    ((1/2 : ℚ) * (1/2) + 0 * 0 < 1) ∧
    quatNormSq (emit_quaternion 0 0 (1/2) 0) = 1 :=
  ⟨by norm_num, by norm_num, by norm_num,
    emit_quaternion_norm 0 0 (1/2) 0 (by norm_num) (by norm_num) (by norm_num)⟩

/-- The rejection-sampling loop adds one quaternion per accepted pass and
stops once `i` passes `n`: a completed run has `n + 1 - i` new entries. -/
theorem genLoop_length (stream : ℕ → ℚ) :
    ∀ (fuel pos i n : ℕ) (acc out : List (ℝ × ℝ × ℝ × ℝ)),
      genLoop stream fuel pos i n acc = some out →
      out.length = acc.length + (n + 1 - i) := by
  intro fuel
  induction fuel with
  | zero => intro pos i n acc out h; exact absurd h (by simp [genLoop])
  | succ fuel ih =>
    intro pos i n acc out h
    rw [genLoop] at h
    by_cases hin : i ≤ n
    · rw [if_pos hin] at h
      by_cases hs1 : stream pos * stream pos + stream (pos+1) * stream (pos+1) < 1
      · rw [if_pos hs1] at h
        by_cases hs2 : stream (pos+2) * stream (pos+2) + stream (pos+3) * stream (pos+3) < 1
        · rw [if_pos hs2] at h
          have := ih (pos+4) (i+1) n _ out h
          simp only [List.length_append, List.length_cons, List.length_nil] at this
          omega
        · rw [if_neg hs2] at h
          have := ih (pos+4) i n acc out h
          omega
      · rw [if_neg hs1] at h
        have := ih (pos+2) i n acc out h
        omega
    · rw [if_neg hin] at h
      cases h
      omega

/-- C7 (amended, proved): for every rotation count `nrotations ≥ 2`, a
completed `generate_rand_quaternions` run returns exactly `nrotations`
quaternions. -/
theorem generate_rand_quaternions_count (stream : ℕ → ℚ) (fuel : ℕ)
    (s : SamplerSettings) (qs : List (ℝ × ℝ × ℝ × ℝ))
    (h1 : 2 ≤ s.nrotations)
    (h2 : generate_rand_quaternions stream fuel s = some qs) :
    qs.length = s.nrotations := by
  unfold generate_rand_quaternions at h2
  rw [if_pos (by omega)] at h2
  have := genLoop_length stream fuel 0 1 s.nrotations [] qs h2
  simpa using this

/-- Witness for C7's amended theorem: with a stream constantly `1/2` every
draw is accepted, and a run with `nrotations = 2` returns two quaternions. -/
theorem generate_rand_quaternions_count_witness :
    generate_rand_quaternions (fun _ => (1/2 : ℚ)) 3 { nrotations := 2 } =
      some [emit_quaternion (1/2) (1/2) (1/2) (1/2),
            emit_quaternion (1/2) (1/2) (1/2) (1/2)] ∧
    [emit_quaternion ((1/2 : ℚ)) (1/2) (1/2) (1/2),
     emit_quaternion (1/2) (1/2) (1/2) (1/2)].length = 2 := by
  have heq : generate_rand_quaternions (fun _ => (1/2 : ℚ)) 3 { nrotations := 2 } =
      some [emit_quaternion (1/2) (1/2) (1/2) (1/2),
            emit_quaternion (1/2) (1/2) (1/2) (1/2)] := by
    norm_num [generate_rand_quaternions, genLoop]
  exact ⟨heq, generate_rand_quaternions_count _ 3 _ _ (by decide) heq⟩

/-- C7 (counterexample): with `nrotations = 1` — within the claim's range
`nrotations ≥ 1` — the guard `if self.settings.nrotations > 1` skips the loop
and the function returns an empty list, not 1 quaternion. -/
theorem generate_rand_quaternions_one_rotation :
    generate_rand_quaternions (fun _ => (1/2 : ℚ)) 3 { nrotations := 1 } = some [] ∧
    ([] : List (ℝ × ℝ × ℝ × ℝ)).length ≠ 1 := by
  constructor
  · rfl
  · simp

/-- C3 (amended, proved): `_single_grid` compares each channel only against
the FIRST TWO other channels in iteration order (`other_grids[0]` and
`other_grids[1]`; the remaining comparisons are commented out in the source).
With exactly three channels — the default apolar/donor/acceptor set — this
coincides with the claim: a cell keeps its value iff it strictly exceeds the
corresponding value of every other channel, else it is zeroed. -/
theorem single_grid_three_channels (n1 n2 n3 : String) (g1 g2 g3 : GGrid)
    (h12 : n1 ≠ n2) (h13 : n1 ≠ n3) (h23 : n2 ≠ n3) (i j k : ℕ)
    (hb1 : i < g1.nx ∧ j < g1.ny ∧ k < g1.nz)
    (hb2 : i < g2.nx ∧ j < g2.ny ∧ k < g2.nz)
    (hb3 : i < g3.nx ∧ j < g3.ny ∧ k < g3.nz) :
    channelValue (single_grid [(n1, g1), (n2, g2), (n3, g3)]) n1 i j k =
      some (if g2.val i j k < g1.val i j k ∧ g3.val i j k < g1.val i j k
            then g1.val i j k else 0) ∧
    channelValue (single_grid [(n1, g1), (n2, g2), (n3, g3)]) n2 i j k =
      some (if g1.val i j k < g2.val i j k ∧ g3.val i j k < g2.val i j k
            then g2.val i j k else 0) ∧
    channelValue (single_grid [(n1, g1), (n2, g2), (n3, g3)]) n3 i j k =
      some (if g1.val i j k < g3.val i j k ∧ g2.val i j k < g3.val i j k
            then g3.val i j k else 0) := by
  have hsg : single_grid [(n1, g1), (n2, g2), (n3, g3)] =
      some [(n1, GGrid.mulG g1 (GGrid.andG (GGrid.gtG g1 g2) (GGrid.gtG g1 g3))),
            (n2, GGrid.mulG g2 (GGrid.andG (GGrid.gtG g2 g1) (GGrid.gtG g2 g3))),
            (n3, GGrid.mulG g3 (GGrid.andG (GGrid.gtG g3 g1) (GGrid.gtG g3 g2)))] := by
    simp [single_grid, otherGrids, maskedGrid, h12, h13, h23,
      Ne.symm h12, Ne.symm h13, Ne.symm h23]
  have b12 : (n1 == n2) = false := beq_eq_false_iff_ne.mpr h12
  have b13 : (n1 == n3) = false := beq_eq_false_iff_ne.mpr h13
  have b21 : (n2 == n1) = false := beq_eq_false_iff_ne.mpr (Ne.symm h12)
  have b23 : (n2 == n3) = false := beq_eq_false_iff_ne.mpr h23
  have b31 : (n3 == n1) = false := beq_eq_false_iff_ne.mpr (Ne.symm h13)
  have b32 : (n3 == n2) = false := beq_eq_false_iff_ne.mpr (Ne.symm h23)
  refine ⟨?_, ?_, ?_⟩ <;>
    simp [channelValue, hsg, b12, b13, b21, b23, b31, b32,
      mask_val g1 g2 g3 i j k hb1.1 hb1.2.1 hb1.2.2,
      mask_val g2 g1 g3 i j k hb2.1 hb2.2.1 hb2.2.2,
      mask_val g3 g1 g2 i j k hb3.1 hb3.2.1 hb3.2.2]

/-- Witness for C3's amended theorem on a concrete three-channel set. -/
theorem single_grid_three_channels_witness :
    channelValue (single_grid [("apolar", cgrid 5), ("donor", cgrid 3), ("acceptor", cgrid 1)])
        "apolar" 0 0 0 =
      some (if (cgrid 3).val 0 0 0 < (cgrid 5).val 0 0 0 ∧
              (cgrid 1).val 0 0 0 < (cgrid 5).val 0 0 0
            then (cgrid 5).val 0 0 0 else 0) ∧
    channelValue (single_grid [("apolar", cgrid 5), ("donor", cgrid 3), ("acceptor", cgrid 1)])
        "donor" 0 0 0 =
      some (if (cgrid 5).val 0 0 0 < (cgrid 3).val 0 0 0 ∧
              (cgrid 1).val 0 0 0 < (cgrid 3).val 0 0 0
            then (cgrid 3).val 0 0 0 else 0) ∧
    channelValue (single_grid [("apolar", cgrid 5), ("donor", cgrid 3), ("acceptor", cgrid 1)])
        "acceptor" 0 0 0 =
      some (if (cgrid 5).val 0 0 0 < (cgrid 1).val 0 0 0 ∧
              (cgrid 3).val 0 0 0 < (cgrid 1).val 0 0 0
            then (cgrid 1).val 0 0 0 else 0) :=
  single_grid_three_channels "apolar" "donor" "acceptor" (cgrid 5) (cgrid 3) (cgrid 1)
    (by decide) (by decide) (by decide) 0 0 0 (by decide) (by decide) (by decide)

/-- C3 (counterexample): with four channels the donor cell value 5 is kept
(it beats the first two other channels, both 1) although the negative
channel's value 9 at the same cell is not exceeded — the claim would zero
it. -/
theorem single_grid_counterexample :
    channelValue (single_grid sgs4) "donor" 0 0 0 = some 5 ∧
    (cgrid 5).val 0 0 0 = 5 ∧ (cgrid 9).val 0 0 0 = 9 ∧
    ¬ ((cgrid 9).val 0 0 0 < (cgrid 5).val 0 0 0) ∧ (5 : ℚ) ≠ 0 := by
  have hsg : single_grid sgs4 =
      some [("apolar", GGrid.mulG (cgrid 1) (GGrid.andG (GGrid.gtG (cgrid 1) (cgrid 5))
              (GGrid.gtG (cgrid 1) (cgrid 1)))),
            ("donor", GGrid.mulG (cgrid 5) (GGrid.andG (GGrid.gtG (cgrid 5) (cgrid 1))
              (GGrid.gtG (cgrid 5) (cgrid 1)))),
            ("acceptor", GGrid.mulG (cgrid 1) (GGrid.andG (GGrid.gtG (cgrid 1) (cgrid 1))
              (GGrid.gtG (cgrid 1) (cgrid 5)))),
            ("negative", GGrid.mulG (cgrid 9) (GGrid.andG (GGrid.gtG (cgrid 9) (cgrid 1))
              (GGrid.gtG (cgrid 9) (cgrid 5))))] := by
    simp [single_grid, sgs4, otherGrids, maskedGrid]
  refine ⟨?_, by decide, by decide, by decide, by decide⟩
  rw [hsg]
  simp only [channelValue, Option.some_bind]
  rw [show (List.find? (fun p => p.1 == "donor")
      [("apolar", GGrid.mulG (cgrid 1) (GGrid.andG (GGrid.gtG (cgrid 1) (cgrid 5))
          (GGrid.gtG (cgrid 1) (cgrid 1)))),
       ("donor", GGrid.mulG (cgrid 5) (GGrid.andG (GGrid.gtG (cgrid 5) (cgrid 1))
          (GGrid.gtG (cgrid 5) (cgrid 1)))),
       ("acceptor", GGrid.mulG (cgrid 1) (GGrid.andG (GGrid.gtG (cgrid 1) (cgrid 1))
          (GGrid.gtG (cgrid 1) (cgrid 5)))),
       ("negative", GGrid.mulG (cgrid 9) (GGrid.andG (GGrid.gtG (cgrid 9) (cgrid 1))
          (GGrid.gtG (cgrid 9) (cgrid 5))))]) =
      some ("donor", GGrid.mulG (cgrid 5) (GGrid.andG (GGrid.gtG (cgrid 5) (cgrid 1))
          (GGrid.gtG (cgrid 5) (cgrid 1)))) from by simp]
  simp only [Option.map_some']
  rw [mask_val (cgrid 5) (cgrid 1) (cgrid 1) 0 0 0 (by decide) (by decide) (by decide)]
  norm_num [GGrid.val, cgrid]

/-- A coordinate half a step times `i` from the axis origin indexes cell
`i`. -/
lemma cellIdx_self (o : ℚ) (n : ℕ) (i : ℕ) (hi : i < n) :
    cellIdx o n (o + (i : ℚ) * (1 / 2)) = some i := by
  unfold cellIdx
  rw [show (o + (i : ℚ) * (1 / 2) - o) * 2 = ((i : ℕ) : ℚ) from by push_cast; ring]
  have h1 : ((i : ℕ) : ℚ).den = 1 := Rat.den_natCast i
  have h3 : ((i : ℕ) : ℚ).num < (n : ℤ) := by
    rw [Rat.num_natCast]; exact_mod_cast hi
  rw [if_pos ⟨h1, by simp, h3⟩]
  simp

/-- With padding 0, the super grid of two same-frame grids equals the first
grid. -/
lemma superGrid0_eq (a b : GGrid) (hf : sameFrame a b) (hne : nonemptyG a) :
    gridEq (super_grid 0 a b) a := by
  obtain ⟨hox, hoy, hoz, hnx, hny, hnz⟩ := hf
  obtain ⟨hx, hy, hz⟩ := hne
  have hfarx : farX b = farX a := by unfold farX; rw [hox, hnx]
  have hfary : farY b = farY a := by unfold farY; rw [hoy, hny]
  have hfarz : farZ b = farZ a := by unfold farZ; rw [hoz, hnz]
  have hox2 : min a.ox b.ox = a.ox := by rw [hox, min_self]
  have hoy2 : min a.oy b.oy = a.oy := by rw [hoy, min_self]
  have hoz2 : min a.oz b.oz = a.oz := by rw [hoz, min_self]
  have hsteps : ∀ (o : ℚ) (n : ℕ), 0 < n →
      ((⌈(o + ((n : ℚ) - 1) * (1 / 2) + ((0 : ℕ) : ℚ) * (1 / 2) -
        (o - ((0 : ℕ) : ℚ) * (1 / 2))) * 2⌉).toNat + 1) = n := by
    intro o n hn
    rw [show (o + ((n : ℚ) - 1) * (1 / 2) + ((0 : ℕ) : ℚ) * (1 / 2) -
        (o - ((0 : ℕ) : ℚ) * (1 / 2))) * 2 = ((n : ℚ) - 1) from by push_cast; ring]
    rw [show ((n : ℚ) - 1) = (((n : ℤ) - 1 : ℤ) : ℚ) from by push_cast; ring]
    rw [Int.ceil_intCast]
    omega
  have hoxf : (super_grid 0 a b).ox = a.ox := by
    show min a.ox b.ox - ((0 : ℕ) : ℚ) * (1 / 2) = a.ox
    rw [hox2]; norm_num
  have hoyf : (super_grid 0 a b).oy = a.oy := by
    show min a.oy b.oy - ((0 : ℕ) : ℚ) * (1 / 2) = a.oy
    rw [hoy2]; norm_num
  have hozf : (super_grid 0 a b).oz = a.oz := by
    show min a.oz b.oz - ((0 : ℕ) : ℚ) * (1 / 2) = a.oz
    rw [hoz2]; norm_num
  have hnxf : (super_grid 0 a b).nx = a.nx := by
    show (⌈(max (farX a) (farX b) + ((0 : ℕ) : ℚ) * (1 / 2) -
        (min a.ox b.ox - ((0 : ℕ) : ℚ) * (1 / 2))) * 2⌉).toNat + 1 = a.nx
    rw [hfarx, max_self, hox2]
    unfold farX
    exact hsteps a.ox a.nx hx
  have hnyf : (super_grid 0 a b).ny = a.ny := by
    show (⌈(max (farY a) (farY b) + ((0 : ℕ) : ℚ) * (1 / 2) -
        (min a.oy b.oy - ((0 : ℕ) : ℚ) * (1 / 2))) * 2⌉).toNat + 1 = a.ny
    rw [hfary, max_self, hoy2]
    unfold farY
    exact hsteps a.oy a.ny hy
  have hnzf : (super_grid 0 a b).nz = a.nz := by
    show (⌈(max (farZ a) (farZ b) + ((0 : ℕ) : ℚ) * (1 / 2) -
        (min a.oz b.oz - ((0 : ℕ) : ℚ) * (1 / 2))) * 2⌉).toNat + 1 = a.nz
    rw [hfarz, max_self, hoz2]
    unfold farZ
    exact hsteps a.oz a.nz hz
  refine ⟨hoxf, hoyf, hozf, hnxf, hnyf, hnzf, ?_⟩
  intro i hi j hj k hk
  rw [hnxf] at hi
  rw [hnyf] at hj
  rw [hnzf] at hk
  have e1 : min a.ox b.ox - ((0 : ℕ) : ℚ) * (1 / 2) + (i : ℚ) * (1 / 2) =
      a.ox + (i : ℚ) * (1 / 2) := by rw [hox2]; push_cast; ring
  have e2 : min a.oy b.oy - ((0 : ℕ) : ℚ) * (1 / 2) + (j : ℚ) * (1 / 2) =
      a.oy + (j : ℚ) * (1 / 2) := by rw [hoy2]; push_cast; ring
  have e3 : min a.oz b.oz - ((0 : ℕ) : ℚ) * (1 / 2) + (k : ℚ) * (1 / 2) =
      a.oz + (k : ℚ) * (1 / 2) := by rw [hoz2]; push_cast; ring
  show (match GGrid.valAtAligned a
          (min a.ox b.ox - ((0 : ℕ) : ℚ) * (1 / 2) + (i : ℚ) * (1 / 2),
           min a.oy b.oy - ((0 : ℕ) : ℚ) * (1 / 2) + (j : ℚ) * (1 / 2),
           min a.oz b.oz - ((0 : ℕ) : ℚ) * (1 / 2) + (k : ℚ) * (1 / 2)) with
        | some v => v
        | none =>
          (GGrid.valAtAligned b
            (min a.ox b.ox - ((0 : ℕ) : ℚ) * (1 / 2) + (i : ℚ) * (1 / 2),
             min a.oy b.oy - ((0 : ℕ) : ℚ) * (1 / 2) + (j : ℚ) * (1 / 2),
             min a.oz b.oz - ((0 : ℕ) : ℚ) * (1 / 2) + (k : ℚ) * (1 / 2))).getD 0) = a.f i j k
  rw [e1, e2, e3]
  unfold GGrid.valAtAligned
  rw [cellIdx_self a.ox a.nx i hi, cellIdx_self a.oy a.ny j hj, cellIdx_self a.oz a.nz k hk]
  simp [GGrid.val, hi, hj, hk]

/-- Equal grids share a frame. -/
lemma gridEq_sameFrame (a b : GGrid) (h : gridEq a b) : sameFrame a b :=
  ⟨h.1, h.2.1, h.2.2.1, h.2.2.2.1, h.2.2.2.2.1, h.2.2.2.2.2.1⟩

/-- Frame sharing is symmetric. -/
lemma sameFrame_symm (a b : GGrid) (h : sameFrame a b) : sameFrame b a :=
  ⟨h.1.symm, h.2.1.symm, h.2.2.1.symm, h.2.2.2.1.symm, h.2.2.2.2.1.symm, h.2.2.2.2.2.symm⟩

/-- Frame sharing is transitive. -/
lemma sameFrame_trans (a b c : GGrid) (h1 : sameFrame a b) (h2 : sameFrame b c) :
    sameFrame a c :=
  ⟨h1.1.trans h2.1, h1.2.1.trans h2.2.1, h1.2.2.1.trans h2.2.2.1,
   h1.2.2.2.1.trans h2.2.2.2.1, h1.2.2.2.2.1.trans h2.2.2.2.2.1,
   h1.2.2.2.2.2.trans h2.2.2.2.2.2⟩

/-- Clearing a grid keeps its frame. -/
lemma copy_and_clear_frame (g : GGrid) : sameFrame (copy_and_clear g) g :=
  ⟨rfl, rfl, rfl, rfl, rfl, rfl⟩

/-- C8 (amended, proved): with padding 0, aligning two same-frame grids via
`_common_grid` returns grids equal to the originals; the default call
`_common_grid(g1, g2)` uses padding 1 and does NOT (see the
counterexample). -/
theorem common_grid_padding_zero (g1 g2 : GGrid) (h : sameFrame g1 g2)
    (h1 : nonemptyG g1) :
    gridEq (common_grid g1 g2 0).1 g1 ∧ gridEq (common_grid g1 g2 0).2 g2 := by
  have h2 : nonemptyG g2 := by
    obtain ⟨-, -, -, hx, hy, hz⟩ := h
    exact ⟨hx ▸ h1.1, hy ▸ h1.2.1, hz ▸ h1.2.2⟩
  have hsg : gridEq (super_grid 0 g1 g2) g1 := superGrid0_eq g1 g2 h h1
  have hof : sameFrame (copy_and_clear (super_grid 0 g1 g2)) g1 :=
    sameFrame_trans _ _ _ (copy_and_clear_frame _) (gridEq_sameFrame _ _ hsg)
  constructor
  · exact superGrid0_eq g1 _ (sameFrame_symm _ _ hof) h1
  · exact superGrid0_eq g2 _ (sameFrame_trans _ _ _ (sameFrame_symm _ _ h)
      (sameFrame_symm _ _ hof)) h2

/-- Witness for C8's amended theorem on concrete 1×1×1 grids. -/
theorem common_grid_padding_zero_witness :
    gridEq (common_grid (cgrid 7) (cgrid 7) 0).1 (cgrid 7) ∧
    gridEq (common_grid (cgrid 7) (cgrid 7) 0).2 (cgrid 7) :=
  common_grid_padding_zero (cgrid 7) (cgrid 7) (by decide) (by decide)

/-- C8 (counterexample): `_common_grid(g1, g2)` with its default padding 1
applied to two equal 1×1×1 grids returns a first grid with 5 steps per axis
(the bounding box grows by `2 × padding` cells per side through the two
`super_grid` calls), so the result is not equal to the original. -/
theorem common_grid_default_padding_not_identity :
    sameFrame (cgrid 7) (cgrid 7) ∧
    ¬ gridEq (common_grid (cgrid 7) (cgrid 7) 1).1 (cgrid 7) := by
  refine ⟨by decide, fun h => ?_⟩
  have h5 : (common_grid (cgrid 7) (cgrid 7) 1).1.nx = 5 := by
    norm_num [common_grid, super_grid, copy_and_clear, GGrid.mulS, farX, farY, farZ,
      cgrid, min_def, max_def]
    rw [show Int.toNat 2 = 2 from rfl]
    norm_num
    rfl
  have hh := h.2.2.2.1
  rw [h5] at hh
  exact absurd hh (by norm_num [cgrid])

/-- `_common_grid` with padding 0 on same-frame grids returns the original
grids (cellwise). -/
lemma common_grid0_eq (g1 g2 : GGrid) (h : sameFrame g1 g2) (h1 : nonemptyG g1) :
    gridEq (common_grid g1 g2 0).1 g1 ∧ gridEq (common_grid g1 g2 0).2 g2 := by
  have h2 : nonemptyG g2 := by
    obtain ⟨-, -, -, hx, hy, hz⟩ := h
    exact ⟨hx ▸ h1.1, hy ▸ h1.2.1, hz ▸ h1.2.2⟩
  have hsg : gridEq (super_grid 0 g1 g2) g1 := superGrid0_eq g1 g2 h h1
  have hof : sameFrame (copy_and_clear (super_grid 0 g1 g2)) g1 :=
    sameFrame_trans _ _ _ (copy_and_clear_frame _) (gridEq_sameFrame _ _ hsg)
  constructor
  · exact superGrid0_eq g1 _ (sameFrame_symm _ _ hof) h1
  · exact superGrid0_eq g2 _ (sameFrame_trans _ _ _ (sameFrame_symm _ _ h)
      (sameFrame_symm _ _ hof)) h2

/-- A cleared grid is zero at every cell. -/
lemma copy_and_clear_val (g : GGrid) (i j k : ℕ) : (copy_and_clear g).val i j k = 0 := by
  simp [copy_and_clear, GGrid.mulS, GGrid.val]

/-- Equal grids have equal cell values. -/
lemma gridEq_val (a b : GGrid) (h : gridEq a b) (i j k : ℕ) :
    a.val i j k = b.val i j k := by
  obtain ⟨-, -, -, hnx, hny, hnz, hv⟩ := h
  unfold GGrid.val
  by_cases hb : i < b.nx ∧ j < b.ny ∧ k < b.nz
  · rw [if_pos ⟨hnx ▸ hb.1, hny ▸ hb.2.1, hnz ▸ hb.2.2⟩, if_pos hb]
    exact hv i (hnx ▸ hb.1) j (hny ▸ hb.2.1) k (hnz ▸ hb.2.2)
  · rw [if_neg (by rw [hnx, hny, hnz]; exact hb), if_neg hb]

/-- With no island at the cutoff, `_island_by_volume` returns `None`. -/
lemma island_by_volume_none (sg : GGrid) (cutoff : ℚ) (h : sg.islands cutoff = []) :
    island_by_volume sg cutoff = none := by
  unfold island_by_volume
  rw [h]
  rfl

/-- The all-zero grid has no island at any non-negative cutoff. -/
lemma zgrid_islands (c : ℚ) (hc : 0 ≤ c) : zgrid.islands c = [] := by
  have hca : cellsAbove zgrid c = [] := by
    unfold cellsAbove allCells
    simp [zgrid, cgrid, GGrid.val, show ¬(c < 0) from not_lt.mpr hc]
  unfold GGrid.islands islandsCells
  rw [hca]
  rfl

/-- C9 (confirmed): if the composite single-owner grid has no island at any
cutoff in the search range [0, 30], `_get_grid_by_volume` returns the
all-zero grid `sg * 0` of the composite grid's frame (for any output of the
bounded minimiser inside [0, 30]), and masking any same-frame channel grid
with it in `best_continuous_volume` yields an all-zero selection — no
error. -/
theorem get_grid_by_volume_no_island (sg : GGrid) (volume fminOut : ℚ)
    (h0 : 0 ≤ fminOut) (h30 : fminOut ≤ 30) (hsne : nonemptyG sg)
    (hni : ∀ c : ℚ, 0 ≤ c → c ≤ 30 → sg.islands c = []) :
    get_grid_by_volume sg volume fminOut = some (copy_and_clear sg) ∧
    sameFrame (copy_and_clear sg) sg ∧
    (∀ i j k : ℕ, (copy_and_clear sg).val i j k = 0) ∧
    (∀ mg, sameFrame mg sg →
      ∀ i j k : ℕ, (bcv_channel mg (copy_and_clear sg)).val i j k = 0) := by
  have hib : ∀ c : ℚ, 0 ≤ c → c ≤ 30 → island_by_volume sg c = none :=
    fun c hc1 hc2 => island_by_volume_none sg c (hni c hc1 hc2)
  have halt : count_non_zero_alt sg (pyInt (volume / (1 / 8))) fminOut = 0 := by
    unfold count_non_zero_alt
    rw [hib fminOut h0 h30]
  refine ⟨?_, copy_and_clear_frame sg, fun i j k => copy_and_clear_val sg i j k, ?_⟩
  · simp only [get_grid_by_volume, halt]
    rw [if_neg (by norm_num : ¬((0 : ℤ) < 0))]
    by_cases h29 : (29 : ℚ) ≤ fminOut
    · rw [if_pos h29, hib 1 (by norm_num) (by norm_num)]
      rfl
    · rw [if_neg h29, hib fminOut h0 h30]
      rfl
  · intro mg hmf i j k
    have hmz : sameFrame mg (copy_and_clear sg) :=
      sameFrame_trans _ _ _ hmf (sameFrame_symm _ _ (copy_and_clear_frame sg))
    have hmne : nonemptyG mg := by
      obtain ⟨-, -, -, hx, hy, hz⟩ := hmf
      exact ⟨hx ▸ hsne.1, hy ▸ hsne.2.1, hz ▸ hsne.2.2⟩
    have hcg := common_grid0_eq mg (copy_and_clear sg) hmz hmne
    unfold bcv_channel
    by_cases hbb : i < (common_grid mg (copy_and_clear sg) 0).1.nx ∧
        j < (common_grid mg (copy_and_clear sg) 0).1.ny ∧
        k < (common_grid mg (copy_and_clear sg) 0).1.nz
    · rw [show GGrid.mulG (common_grid mg (copy_and_clear sg) 0).1
          (common_grid mg (copy_and_clear sg) 0).2 =
          GGrid.lift2 (· * ·) (common_grid mg (copy_and_clear sg) 0).1
          (common_grid mg (copy_and_clear sg) 0).2 from rfl]
      rw [lift2_val _ _ _ _ _ _ hbb.1 hbb.2.1 hbb.2.2]
      rw [gridEq_val _ _ hcg.2 i j k, copy_and_clear_val, mul_zero]
    · simp only [GGrid.mulG, GGrid.val, lift2_nx, lift2_ny, lift2_nz]
      rw [if_neg hbb]

/-- Witness for C9 on the all-zero 1×1×1 composite grid with the minimiser
output 15. -/
theorem get_grid_by_volume_no_island_witness :
    get_grid_by_volume zgrid 500 15 = some (copy_and_clear zgrid) ∧
    sameFrame (copy_and_clear zgrid) zgrid ∧
    (copy_and_clear zgrid).val 0 0 0 = 0 ∧
    (bcv_channel zgrid (copy_and_clear zgrid)).val 0 0 0 = 0 := by
  have H := get_grid_by_volume_no_island zgrid 500 15 (by norm_num) (by norm_num)
    (by decide) (fun c hc _ => zgrid_islands c hc)
  exact ⟨H.1, H.2.1, H.2.2.1 0 0 0, H.2.2.2 zgrid (by decide) 0 0 0⟩

/-- C10 (amended, proved): `update_grid` writes `9.5 - rinacc` to the nearest
cell exactly when the line is a `HETATM` record and all three indices are
strictly positive and strictly below the step counts (`0 < i < nx and 0 < j <
ny and 0 < k < nz`); otherwise the grid is unchanged — in particular no
out-of-bounds write ever occurs, but in-bounds cells with any index equal to
0 are also skipped. -/
theorem update_grid_writes_iff (g : GGrid) (line : GhecomLine) (a b c : ℕ)
    (ha : a < g.nx) (hb : b < g.ny) (hc : c < g.nz) :
    (update_grid g [line]).val a b c =
      if line.isHetatm = true ∧
         (0 < (point_to_indices line.coords g).1 ∧
          (point_to_indices line.coords g).1 < (g.nx : ℤ) ∧
          0 < (point_to_indices line.coords g).2.1 ∧
          (point_to_indices line.coords g).2.1 < (g.ny : ℤ) ∧
          0 < (point_to_indices line.coords g).2.2 ∧
          (point_to_indices line.coords g).2.2 < (g.nz : ℤ)) ∧
         ((a : ℤ) = (point_to_indices line.coords g).1 ∧
          (b : ℤ) = (point_to_indices line.coords g).2.1 ∧
          (c : ℤ) = (point_to_indices line.coords g).2.2)
      then 19 / 2 - line.rinacc
      else g.val a b c := by
  rcases hpt : point_to_indices line.coords g with ⟨p, q, r⟩
  simp only [update_grid, List.foldl_cons, List.foldl_nil, hpt]
  by_cases hh : line.isHetatm = true
  · rw [if_pos hh]
    by_cases hint : 0 < p ∧ p < (g.nx : ℤ) ∧ 0 < q ∧ q < (g.ny : ℤ) ∧ 0 < r ∧ r < (g.nz : ℤ)
    · rw [if_pos hint]
      by_cases heq : (a : ℤ) = p ∧ (b : ℤ) = q ∧ (c : ℤ) = r
      · rw [if_pos ⟨hh, hint, heq⟩]
        have hn : a = p.toNat ∧ b = q.toNat ∧ c = r.toNat := by omega
        simp only [GGrid.set_value, GGrid.val]
        rw [if_pos ⟨ha, hb, hc⟩, if_pos hn]
      · rw [if_neg (by tauto)]
        have hn : ¬ (a = p.toNat ∧ b = q.toNat ∧ c = r.toNat) := by omega
        simp only [GGrid.set_value, GGrid.val]
        rw [if_pos ⟨ha, hb, hc⟩, if_neg hn, if_pos ⟨ha, hb, hc⟩]
    · rw [if_neg hint, if_neg (by tauto)]
  · rw [if_neg hh, if_neg (by tauto)]

/-- Witness for C10's amended theorem: a `HETATM` line whose nearest cell is
the interior cell (1,1,1) of a 2×2×2 grid. -/
theorem update_grid_writes_iff_witness :
    (update_grid (cgrid2 0) [lineW]).val 1 1 1 =
      if lineW.isHetatm = true ∧
         (0 < (point_to_indices lineW.coords (cgrid2 0)).1 ∧
          (point_to_indices lineW.coords (cgrid2 0)).1 < ((cgrid2 0).nx : ℤ) ∧
          0 < (point_to_indices lineW.coords (cgrid2 0)).2.1 ∧
          (point_to_indices lineW.coords (cgrid2 0)).2.1 < ((cgrid2 0).ny : ℤ) ∧
          0 < (point_to_indices lineW.coords (cgrid2 0)).2.2 ∧
          (point_to_indices lineW.coords (cgrid2 0)).2.2 < ((cgrid2 0).nz : ℤ)) ∧
         ((1 : ℤ) = (point_to_indices lineW.coords (cgrid2 0)).1 ∧
          (1 : ℤ) = (point_to_indices lineW.coords (cgrid2 0)).2.1 ∧
          (1 : ℤ) = (point_to_indices lineW.coords (cgrid2 0)).2.2)
      then 19 / 2 - lineW.rinacc
      else (cgrid2 0).val 1 1 1 :=
  update_grid_writes_iff (cgrid2 0) lineW 1 1 1 (by decide) (by decide) (by decide)

/-- C10 (counterexample): the `HETATM` line at (0,0,0) maps to cell (0,0,0),
which lies within the bounds of the 2×2×2 grid, yet `update_grid` leaves the
grid unchanged (the guard `0 < i` excludes index 0): the cell keeps the value
0 instead of receiving `9.5 - rinacc = 7.5`. -/
theorem update_grid_skips_boundary_cell :
    lineC.isHetatm = true ∧
    point_to_indices lineC.coords (cgrid2 0) = (0, 0, 0) ∧
    ((0 : ℕ) < (cgrid2 0).nx ∧ (0 : ℕ) < (cgrid2 0).ny ∧ (0 : ℕ) < (cgrid2 0).nz) ∧
    (update_grid (cgrid2 0) [lineC]).val 0 0 0 = 0 ∧
    (19 / 2 - lineC.rinacc : ℚ) ≠ 0 := by
  have h0 : pyRound (0 : ℚ) = 0 := by norm_num [pyRound]
  have hpt : point_to_indices lineC.coords (cgrid2 0) = (0, 0, 0) := by
    simp [point_to_indices, lineC, cgrid2, h0]
  have hupd : update_grid (cgrid2 0) [lineC] = cgrid2 0 := by
    simp [update_grid, lineC, cgrid2, point_to_indices, h0]
  refine ⟨rfl, hpt, by decide, ?_, by norm_num [lineC]⟩
  rw [hupd]
  decide

/-- C1 (code_bug): `get_priority_atom` takes `sorted(atom_by_distance.keys())[0]`
— the LEAST distance — although its own docstring (and the claim) say the
polar atom FURTHEST from the centre of geometry is selected.  On the example
molecule (centroid (2,0,0); polar atoms at distances 1 and 3) it returns the
polar atom at distance 1 while the polar atom at distance 3 is strictly
farther. -/
theorem get_priority_atom_returns_nearest :
    get_priority_atom molEx = some (atomA, "acceptor") ∧
    atomB ∈ molEx ∧ (atomB.is_donor || atomB.is_acceptor) = true ∧
    get_distance (centre_of_geometry molEx) atomA.coordinates <
      get_distance (centre_of_geometry molEx) atomB.coordinates := by
  have hc : centre_of_geometry molEx = ((2 : ℚ), (0 : ℚ), (0 : ℚ)) := by
    norm_num [centre_of_geometry, molEx, atomA, atomB, atomC]
  have hdA : get_distance ((2 : ℚ), (0 : ℚ), (0 : ℚ)) atomA.coordinates = 1 := by
    rw [show atomA.coordinates = ((1 : ℚ), (0 : ℚ), (0 : ℚ)) from rfl]
    unfold get_distance
    rw [show ((((2:ℚ):ℝ)) - ((1:ℚ):ℝ)) ^ 2 + ((((0:ℚ):ℝ)) - ((0:ℚ):ℝ)) ^ 2 +
        ((((0:ℚ):ℝ)) - ((0:ℚ):ℝ)) ^ 2 = 1 from by push_cast; norm_num]
    exact Real.sqrt_one
  have hdB : get_distance ((2 : ℚ), (0 : ℚ), (0 : ℚ)) atomB.coordinates = 3 := by
    rw [show atomB.coordinates = ((5 : ℚ), (0 : ℚ), (0 : ℚ)) from rfl]
    unfold get_distance
    rw [show ((((2:ℚ):ℝ)) - ((5:ℚ):ℝ)) ^ 2 + ((((0:ℚ):ℝ)) - ((0:ℚ):ℝ)) ^ 2 +
        ((((0:ℚ):ℝ)) - ((0:ℚ):ℝ)) ^ 2 = 3 ^ 2 from by push_cast; norm_num]
    exact Real.sqrt_sq (by norm_num)
  refine ⟨?_, by decide, by decide, ?_⟩
  · simp only [get_priority_atom]
    rw [hc]
    have hfilter : molEx.filter (fun a => a.is_donor || a.is_acceptor) = [atomA, atomB] := by
      decide
    rw [hfilter]
    rw [if_pos (by norm_num)]
    simp only [List.foldl_cons, List.foldl_nil]
    rw [hdA, hdB]
    have hd1 : dictInsertR [] 1 atomA = [(1, atomA)] := by
      unfold dictInsertR
      rw [if_neg (by simp)]
      try rfl
    have hd2 : dictInsertR [((1 : ℝ), atomA)] 3 atomB = [(1, atomA), (3, atomB)] := by
      unfold dictInsertR
      rw [if_neg (by norm_num)]
      try rfl
    have hmin : minKeyR [((1 : ℝ), atomA), ((3 : ℝ), atomB)] = some 1 := by
      unfold minKeyR
      simp only [List.foldl_cons, List.foldl_nil]
      norm_num
    have hlook : lookupR [((1 : ℝ), atomA), ((3 : ℝ), atomB)] 1 = some atomA := by
      unfold lookupR
      simp
    rw [hd1, hd2]
    simp only [hmin]
    simp only [hlook]
    simp [atomA]
  · rw [hc, hdA, hdB]
    norm_num
